import Mathlib

/-!
Verification of the stockbit-crawler core against its specification.

Each component is embedded shallowly: pure Python functions become Lean
functions over `Nat`, `String`, and `List`; byte strings become `List Nat`;
stateful methods become explicit state-passing functions.  The definitions
follow the Python source (`orderbook_streamer.py`, `stockbit_client.py`,
`jobs.py`, `auth.py`, `storage.py`, `orderbook_daemon.py`) line by line.
-/

namespace StockbitCrawler

/-! ### Python semantics helpers -/

/-- Python `<=` on strings: lexicographic comparison of code points
(`trade_time <= '09:00:00'` in `stockbit_client.py`). -/
def pyCharsLe : List Char → List Char → Bool
  | [], _ => true
  | _ :: _, [] => false
  | a :: as, b :: bs =>
    a.val < b.val || (a.val == b.val && pyCharsLe as bs)

/-- Python string `s <= t`. -/
def pyStrLe (s t : String) : Bool := pyCharsLe s.data t.data

/-- UTF-8 bytes of a string, as Python's `value.encode('utf-8')`. -/
def strBytes (s : String) : List Nat := s.toUTF8.toList.map (fun b => b.toNat)

/-! ### Protocol codec (`orderbook_streamer.py`)

`_encode_varint` appends `(value & 0x7F) | 0x80` while `value > 127`,
shifting right by 7, then appends the final `value & 0x7F`. -/

/-- `_encode_varint` from `orderbook_streamer.py`. -/
def encode_varint (value : Nat) : List Nat :=
  if h : value > 127 then
    ((value &&& 127) ||| 128) :: encode_varint (value >>> 7)
  else
    [value &&& 127]
termination_by value
decreasing_by
  simp only [Nat.shiftRight_eq_div_pow]
  exact Nat.div_lt_self (by omega) (by norm_num)

/-- `_encode_field_string` generalized to a raw byte payload: tag with wire
type 2, varint length, then the payload bytes. -/
def encode_field_bytes (field_number : Nat) (value : List Nat) : List Nat :=
  encode_varint ((field_number <<< 3) ||| 2) ++ encode_varint value.length ++ value

/-- `_encode_field_string` from `orderbook_streamer.py`: the payload is the
UTF-8 encoding of `value`. -/
def encode_field_string (field_number : Nat) (value : String) : List Nat :=
  encode_field_bytes field_number (strBytes value)

/-- The `field2_inner` bytes built by `encode_websocket_request`: each plain
ticker, then each `"2"`-prefixed, `":"`-prefixed and `"J"`-prefixed ticker,
all as inner field 2 strings. -/
def subscriptionInner (tickers : List String) : List Nat :=
  (tickers.map (fun t => encode_field_string 2 t)).flatten ++
  (tickers.map (fun t => encode_field_string 2 ("2" ++ t))).flatten ++
  (tickers.map (fun t => encode_field_string 2 (":" ++ t))).flatten ++
  (tickers.map (fun t => encode_field_string 2 ("J" ++ t))).flatten

/-- `encode_websocket_request` from `orderbook_streamer.py`: field 1 is
`str(user_id)`, field 2 the nested ticker container (tag byte `(2 << 3) | 2`
appended directly, then the varint length of the inner content), field 3 the
trading key, field 5 the bearer token. -/
def encode_websocket_request (user_id : Nat) (tickers : List String)
    (trading_key : String) (access_token : String) : List Nat :=
  let field2_inner := subscriptionInner tickers
  encode_field_string 1 (toString user_id) ++
  ([(2 <<< 3) ||| 2] ++ encode_varint field2_inner.length ++ field2_inner) ++
  encode_field_string 3 trading_key ++
  encode_field_string 5 access_token

/-- `_decode_varint` from `orderbook_streamer.py`:
`result |= (byte & 0x7F) << shift`, stop when the continuation bit is clear;
running out of bytes raises `ValueError` (modelled as `none`). -/
def read_varint_aux : List Nat → Nat → Nat → Option (Nat × List Nat)
  | [], _, _ => none
  | b :: rest, shift, acc =>
    let acc' := acc ||| ((b &&& 127) <<< shift)
    if b &&& 128 == 0 then some (acc', rest)
    else read_varint_aux rest (shift + 7) acc'

/-- `_decode_varint` reading from the start of `data`. -/
def read_varint (data : List Nat) : Option (Nat × List Nat) :=
  read_varint_aux data 0 0

/-! ### Varint lemmas -/

theorem read_varint_aux_length : ∀ (l : List Nat) (s a v : Nat) (rest : List Nat),
    read_varint_aux l s a = some (v, rest) → rest.length < l.length := by
  intro l
  induction l with
  | nil => intro s a v rest h; simp [read_varint_aux] at h
  | cons b t ih =>
    intro s a v rest h
    simp only [read_varint_aux] at h
    by_cases hb : b &&& 128 == 0
    · simp only [hb, if_true] at h
      cases h
      simp
    · simp only [hb, if_false] at h
      have := ih _ _ _ _ h
      simp only [List.length_cons]
      omega

theorem read_varint_length {l : List Nat} {v : Nat} {rest : List Nat}
    (h : read_varint l = some (v, rest)) : rest.length < l.length :=
  read_varint_aux_length l 0 0 v rest h

theorem and_127_of_le (n : Nat) (h : n ≤ 127) : n &&& 127 = n := by
  have h1 : n &&& 2 ^ 7 - 1 = n % 2 ^ 7 := Nat.and_pow_two_sub_one_eq_mod n 7
  norm_num at h1
  rw [h1]
  omega

theorem and_128_of_le (n : Nat) (h : n ≤ 127) : n &&& 128 = 0 := by
  have h1 : n &&& 2 ^ 7 = (n.testBit 7).toNat * 2 ^ 7 := Nat.and_two_pow n 7
  have h2 : n.testBit 7 = false := by
    apply Nat.testBit_lt_two_pow
    norm_num
    omega
  rw [h2] at h1
  norm_num at h1 ⊢
  exact h1

theorem shiftLeft_or_distrib (x y s : Nat) : (x ||| y) <<< s = (x <<< s) ||| (y <<< s) := by
  apply Nat.eq_of_testBit_eq
  intro i
  simp only [Nat.testBit_shiftLeft, Nat.testBit_or]
  by_cases h : s ≤ i <;> simp [h]

theorem or_byte_and_127 (n : Nat) : ((n &&& 127) ||| 128) &&& 127 = n &&& 127 := by
  apply Nat.eq_of_testBit_eq
  intro i
  have h127 : (127 : Nat) = 2 ^ 7 - 1 := by norm_num
  have h128 : (128 : Nat) = 2 ^ 7 := by norm_num
  simp only [Nat.testBit_and, Nat.testBit_or, h127, h128, Nat.testBit_two_pow_sub_one,
    Nat.testBit_two_pow]
  by_cases h : i < 7
  · have : ¬ (7 = i) := by omega
    simp [h, this]
  · simp [h]

theorem or_byte_and_128 (n : Nat) : ((n &&& 127) ||| 128) &&& 128 = 128 := by
  apply Nat.eq_of_testBit_eq
  intro i
  have h127 : (127 : Nat) = 2 ^ 7 - 1 := by norm_num
  have h128 : (128 : Nat) = 2 ^ 7 := by norm_num
  simp only [Nat.testBit_and, Nat.testBit_or, h127, h128, Nat.testBit_two_pow_sub_one,
    Nat.testBit_two_pow]
  by_cases h : 7 = i
  · subst h; simp
  · simp [h]

theorem low_or_high_decomp (n : Nat) : (n &&& 127) ||| ((n >>> 7) <<< 7) = n := by
  apply Nat.eq_of_testBit_eq
  intro i
  have h127 : (127 : Nat) = 2 ^ 7 - 1 := by norm_num
  simp only [Nat.testBit_or, Nat.testBit_and, h127, Nat.testBit_two_pow_sub_one,
    Nat.testBit_shiftLeft, Nat.testBit_shiftRight]
  by_cases h : i < 7
  · have : ¬ (7 ≤ i) := by omega
    simp [h, this]
  · have h7 : 7 ≤ i := by omega
    have : 7 + (i - 7) = i := by omega
    simp [h, h7, this]

/-- Decoding a varint encoding with arbitrary accumulator state. -/
theorem read_varint_aux_encode (n : Nat) : ∀ (rest : List Nat) (s a : Nat),
    read_varint_aux (encode_varint n ++ rest) s a = some (a ||| (n <<< s), rest) := by
  induction n using Nat.strong_induction_on with
  | _ n ih =>
    intro rest s a
    rw [encode_varint]
    by_cases h : n > 127
    · rw [dif_pos h, List.cons_append]
      simp only [read_varint_aux]
      rw [or_byte_and_127, or_byte_and_128]
      simp only [show ((128 : Nat) == 0) = false from rfl, Bool.false_eq_true, if_false]
      have hdiv : n >>> 7 < n := by
        simp only [Nat.shiftRight_eq_div_pow]
        exact Nat.div_lt_self (by omega) (by norm_num)
      rw [ih (n >>> 7) hdiv rest (s + 7) (a ||| ((n &&& 127) <<< s))]
      congr 2
      rw [Nat.or_assoc]
      congr 1
      have hadd : (n >>> 7) <<< (s + 7) = ((n >>> 7) <<< 7) <<< s := by
        rw [Nat.add_comm s 7, Nat.shiftLeft_add]
      rw [hadd, ← shiftLeft_or_distrib, low_or_high_decomp]
    · rw [dif_neg h]
      push_neg at h
      rw [List.cons_append, List.nil_append]
      simp only [read_varint_aux]
      simp [and_127_of_le n h, and_128_of_le n h]

/-- Decoding the encoding of `n` followed by `rest` yields `n` and `rest`. -/
theorem read_varint_encode (n : Nat) (rest : List Nat) :
    read_varint (encode_varint n ++ rest) = some (n, rest) := by
  rw [read_varint, read_varint_aux_encode]
  simp

theorem encode_varint_ne_nil (n : Nat) : encode_varint n ≠ [] := by
  rw [encode_varint]
  by_cases h : n > 127 <;> simp [h]

theorem encode_varint_small (n : Nat) (h : n ≤ 127) : encode_varint n = [n] := by
  rw [encode_varint, dif_neg (by omega), and_127_of_le n h]

/-! ### Inbound frame decoder (`orderbook_streamer.py`) -/

/-- A value stored in a decoded field dict: a varint (wire type 0) or the
payload bytes of a length-delimited field (wire type 2).  The Python code
stores wire-type-2 payloads as `str` when they decode as UTF-8 and as raw
`bytes` otherwise; both carry the same byte content, which is what we keep. -/
inductive FieldVal
  | vint (n : Nat)
  | bytes (bs : List Nat)
deriving DecidableEq, Repr

/-- `fields[field_number] = value` on an insertion-ordered Python dict. -/
def dictInsert (d : List (Nat × FieldVal)) (k : Nat) (v : FieldVal) :
    List (Nat × FieldVal) :=
  if d.any (fun p => p.1 == k) then
    d.map (fun p => if p.1 == k then (k, v) else p)
  else d ++ [(k, v)]

/-- `fields.get(k, dflt)`. -/
def dictGet (d : List (Nat × FieldVal)) (k : Nat) (dflt : FieldVal) : FieldVal :=
  match d.find? (fun p => p.1 == k) with
  | some p => p.2
  | none => dflt

/-- The loop of `decode_nested_orderbook`: wire type 0 stores a varint, wire
type 2 stores the sliced payload (Python slicing past the end truncates),
other wire types are skipped. -/
def decode_nested_fields (data : List Nat) (acc : List (Nat × FieldVal)) :
    Option (List (Nat × FieldVal)) :=
  match data with
  | [] => some acc
  | b :: t =>
    match h1 : read_varint (b :: t) with
    | none => none
    | some (tag, r1) =>
      let field_number := tag >>> 3
      let wire_type := tag &&& 7
      if wire_type == 0 then
        match h2 : read_varint r1 with
        | none => none
        | some (v, r2) => decode_nested_fields r2 (dictInsert acc field_number (.vint v))
      else if wire_type == 2 then
        match h2 : read_varint r1 with
        | none => none
        | some (len, r2) =>
          decode_nested_fields (r2.drop len) (dictInsert acc field_number (.bytes (r2.take len)))
      else
        decode_nested_fields r1 acc
termination_by data.length
decreasing_by
  all_goals
    first
      | (have l1 := read_varint_length h1
         have l2 := read_varint_length h2
         simp only [List.length_cons, List.length_drop] at l1 l2 ⊢
         omega)
      | (have l1 := read_varint_length h1
         simp only [List.length_cons] at l1 ⊢
         omega)

/-- Result of `decode_nested_orderbook`: the mapped dict
`{1: fields.get(1,''), 2: fields.get(2,''), 'raw_fields': fields}`. -/
structure NestedOrderbook where
  ticker : FieldVal
  orderbook : FieldVal
  raw_fields : List (Nat × FieldVal)
deriving DecidableEq, Repr

/-- `decode_nested_orderbook` from `orderbook_streamer.py`; internal decode
errors are caught and produce `None`. -/
def decode_nested_orderbook (data : List Nat) : Option NestedOrderbook :=
  match decode_nested_fields data [] with
  | none => none
  | some fields =>
    some { ticker := dictGet fields 1 (.bytes [])
           orderbook := dictGet fields 2 (.bytes [])
           raw_fields := fields }

/-- What `decode_orderbook_message` returns: either the nested field-10
payload (returned early) or the dict of top-level fields. -/
inductive DecodeResult
  | nested (n : NestedOrderbook)
  | fields (d : List (Nat × FieldVal))
deriving DecidableEq, Repr

/-- The loop of `decode_orderbook_message`: field 10 with wire type 2 returns
the nested decode immediately (`None` included), other wire-type-2 fields are
stored by byte content, wire type 0 stores a varint, and an unknown wire type
breaks out of the loop returning the fields collected so far. -/
def decode_message_fields (data : List Nat) (acc : List (Nat × FieldVal)) :
    Option DecodeResult :=
  match data with
  | [] => some (.fields acc)
  | b :: t =>
    match h1 : read_varint (b :: t) with
    | none => none
    | some (tag, r1) =>
      let field_number := tag >>> 3
      let wire_type := tag &&& 7
      if wire_type == 0 then
        match h2 : read_varint r1 with
        | none => none
        | some (v, r2) => decode_message_fields r2 (dictInsert acc field_number (.vint v))
      else if wire_type == 2 then
        match h2 : read_varint r1 with
        | none => none
        | some (len, r2) =>
          let value := r2.take len
          if field_number == 10 then
            match decode_nested_orderbook value with
            | none => none
            | some n => some (.nested n)
          else
            decode_message_fields (r2.drop len) (dictInsert acc field_number (.bytes value))
      else
        some (.fields acc)
termination_by data.length
decreasing_by
  all_goals
    first
      | (have l1 := read_varint_length h1
         have l2 := read_varint_length h2
         simp only [List.length_cons, List.length_drop] at l1 l2 ⊢
         omega)
      | (have l1 := read_varint_length h1
         simp only [List.length_cons] at l1 ⊢
         omega)

/-- `decode_orderbook_message` from `orderbook_streamer.py`. -/
def decode_orderbook_message (data : List Nat) : Option DecodeResult :=
  decode_message_fields data []

/-- Spec-side comparator (§4.D of the spec): read a frame as the ordered list
of its `(field number, payload)` pairs, all fields length-delimited.  Used to
state what the encoder must have produced; not part of the source. -/
def wireFields (data : List Nat) : Option (List (Nat × List Nat)) :=
  match data with
  | [] => some []
  | b :: t =>
    match h1 : read_varint (b :: t) with
    | none => none
    | some (tag, r1) =>
      if tag &&& 7 == 2 then
        match h2 : read_varint r1 with
        | none => none
        | some (len, r2) =>
          if len ≤ r2.length then
            match wireFields (r2.drop len) with
            | none => none
            | some rest => some ((tag >>> 3, r2.take len) :: rest)
          else none
      else none
termination_by data.length
decreasing_by
  all_goals
    first
      | (have l1 := read_varint_length h1
         have l2 := read_varint_length h2
         simp only [List.length_cons, List.length_drop] at l1 l2 ⊢
         omega)
      | (have l1 := read_varint_length h1
         simp only [List.length_cons] at l1 ⊢
         omega)

/-! ### Field-level codec lemmas -/

theorem tag_and_7 (f : Nat) : ((f <<< 3) ||| 2) &&& 7 = 2 := by
  apply Nat.eq_of_testBit_eq
  intro i
  have h7 : (7 : Nat) = 2 ^ 3 - 1 := by norm_num
  simp only [Nat.testBit_and, Nat.testBit_or, h7, Nat.testBit_two_pow_sub_one,
    Nat.testBit_shiftLeft]
  by_cases h : i < 3
  · have : ¬ (3 ≤ i) := by omega
    simp [h, this]
  · have h2 : (2 : Nat).testBit i = false := by
      apply Nat.testBit_lt_two_pow
      have : 2 ^ 2 ≤ 2 ^ i := Nat.pow_le_pow_right (by norm_num) (by omega)
      omega
    simp [h, h2]

theorem tag_shift_3 (f : Nat) : ((f <<< 3) ||| 2) >>> 3 = f := by
  apply Nat.eq_of_testBit_eq
  intro i
  have h2 : (2 : Nat).testBit (3 + i) = false := by
    apply Nat.testBit_lt_two_pow
    have : 2 ^ 2 ≤ 2 ^ (3 + i) := Nat.pow_le_pow_right (by norm_num) (by omega)
    omega
  simp [Nat.testBit_shiftRight, Nat.testBit_or, Nat.testBit_shiftLeft, h2]

theorem encode_field_bytes_cons (f : Nat) (v rest : List Nat) :
    ∃ b bs, encode_varint ((f <<< 3) ||| 2) = b :: bs ∧
      encode_field_bytes f v ++ rest =
        b :: (bs ++ (encode_varint v.length ++ (v ++ rest))) := by
  cases h : encode_varint ((f <<< 3) ||| 2) with
  | nil => exact absurd h (encode_varint_ne_nil _)
  | cons b bs =>
    refine ⟨b, bs, rfl, ?_⟩
    simp [encode_field_bytes, h]

/-- Reading one encoded field off the front of a frame, spec-side parser. -/
theorem wireFields_step (f : Nat) (v rest : List Nat) :
    wireFields (encode_field_bytes f v ++ rest) =
      (wireFields rest).map (fun l => (f, v) :: l) := by
  obtain ⟨b, bs, hbs, hdata⟩ := encode_field_bytes_cons f v rest
  have hread : read_varint (b :: (bs ++ (encode_varint v.length ++ (v ++ rest)))) =
      some ((f <<< 3) ||| 2, encode_varint v.length ++ (v ++ rest)) := by
    rw [show b :: (bs ++ (encode_varint v.length ++ (v ++ rest))) =
        encode_varint ((f <<< 3) ||| 2) ++ (encode_varint v.length ++ (v ++ rest)) by
      rw [hbs]; simp]
    exact read_varint_encode _ _
  rw [hdata, wireFields]
  split
  · next heq => rw [hread] at heq; cases heq
  · next tag r1 heq =>
    rw [hread] at heq
    cases heq
    rw [tag_and_7]
    simp only [show ((2 : Nat) == 2) = true from rfl, if_true]
    split
    · next heq2 => rw [read_varint_encode] at heq2; cases heq2
    · next len r2 heq2 =>
      rw [read_varint_encode] at heq2
      cases heq2
      have hlen : v.length ≤ (v ++ rest).length := by simp
      rw [if_pos hlen, tag_shift_3, List.take_left, List.drop_left]
      cases wireFields rest <;> rfl

theorem wireFields_nil : wireFields [] = some [] := by rw [wireFields]

/-- Parsing a concatenation of encoded fields followed by `rest`. -/
theorem wireFields_encodeList (items : List (Nat × List Nat)) (rest : List Nat)
    (out : List (Nat × List Nat)) (h : wireFields rest = some out) :
    wireFields ((items.map (fun p => encode_field_bytes p.1 p.2)).flatten ++ rest) =
      some (items ++ out) := by
  induction items with
  | nil => simpa using h
  | cons p ps ih =>
    rw [List.map_cons, List.flatten_cons, List.append_assoc, wireFields_step, ih]
    rfl

theorem decode_message_nil (acc : List (Nat × FieldVal)) :
    decode_message_fields [] acc = some (.fields acc) := by
  rw [decode_message_fields]

/-- Reading one encoded field (field number ≠ 10) off the front of a frame
with the source decoder stores its byte content in the dict. -/
theorem decode_message_step (f : Nat) (hf10 : (f == 10) = false) (v rest : List Nat)
    (acc : List (Nat × FieldVal)) :
    decode_message_fields (encode_field_bytes f v ++ rest) acc =
      decode_message_fields rest (dictInsert acc f (.bytes v)) := by
  obtain ⟨b, bs, hbs, hdata⟩ := encode_field_bytes_cons f v rest
  have hread : read_varint (b :: (bs ++ (encode_varint v.length ++ (v ++ rest)))) =
      some ((f <<< 3) ||| 2, encode_varint v.length ++ (v ++ rest)) := by
    rw [show b :: (bs ++ (encode_varint v.length ++ (v ++ rest))) =
        encode_varint ((f <<< 3) ||| 2) ++ (encode_varint v.length ++ (v ++ rest)) by
      rw [hbs]; simp]
    exact read_varint_encode _ _
  rw [hdata, decode_message_fields]
  split
  · next heq => rw [hread] at heq; cases heq
  · next tag r1 heq =>
    rw [hread] at heq
    cases heq
    simp only [tag_and_7, tag_shift_3]
    simp only [show ((2 : Nat) == 0) = false from rfl, Bool.false_eq_true, if_false,
      show ((2 : Nat) == 2) = true from rfl, if_true]
    split
    · next heq2 => rw [read_varint_encode] at heq2; cases heq2
    · next len r2 heq2 =>
      rw [read_varint_encode] at heq2
      cases heq2
      simp only [hf10, Bool.false_eq_true, if_false, List.take_left, List.drop_left]

/-- **C4** — For every user id, ticker list of length N, trading key and
bearer, the encoded subscription frame consists of exactly the fields
1 (ASCII decimal user id), 2 (nested container), 3 (trading key) and
5 (bearer), in that order, and the nested field-2 payload parses into
exactly 4×N inner field-2 strings: every ticker in list order, then the
`"2"`-, `":"`- and `"J"`-prefixed variants, each in list order. -/
theorem C4_subscription_frame_structure (uid : Nat) (tickers : List String)
    (key bearer : String) (hne : tickers ≠ []) :
    wireFields (encode_websocket_request uid tickers key bearer) =
      some [(1, strBytes (toString uid)),
            (2, subscriptionInner tickers),
            (3, strBytes key),
            (5, strBytes bearer)] ∧
    wireFields (subscriptionInner tickers) =
      some ((tickers.map (fun t => (2, strBytes t))) ++
            (tickers.map (fun t => (2, strBytes ("2" ++ t)))) ++
            (tickers.map (fun t => (2, strBytes (":" ++ t)))) ++
            (tickers.map (fun t => (2, strBytes ("J" ++ t))))) ∧
    ((tickers.map (fun t => (2, strBytes t))) ++
     (tickers.map (fun t => (2, strBytes ("2" ++ t)))) ++
     (tickers.map (fun t => (2, strBytes (":" ++ t)))) ++
     (tickers.map (fun t => (2, strBytes ("J" ++ t))))).length
      = 4 * tickers.length := by
  refine ⟨?_, ?_, ?_⟩
  · have h := wireFields_encodeList
      [(1, strBytes (toString uid)), (2, subscriptionInner tickers),
       (3, strBytes key), (5, strBytes bearer)] [] [] wireFields_nil
    simp only [List.map_cons, List.map_nil, List.flatten_cons, List.flatten_nil,
      List.append_nil] at h
    rw [encode_websocket_request]
    rw [show encode_field_string 1 (toString uid) ++
        ([(2 <<< 3) ||| 2] ++ encode_varint (subscriptionInner tickers).length ++
          subscriptionInner tickers) ++
        encode_field_string 3 key ++ encode_field_string 5 bearer =
        encode_field_bytes 1 (strBytes (toString uid)) ++
        (encode_field_bytes 2 (subscriptionInner tickers) ++
        (encode_field_bytes 3 (strBytes key) ++
         encode_field_bytes 5 (strBytes bearer))) by
      simp [encode_field_string, encode_field_bytes,
        encode_varint_small 18 (by norm_num)]]
    simpa using h
  · have h := wireFields_encodeList
      ((tickers.map (fun t => (2, strBytes t))) ++
       (tickers.map (fun t => (2, strBytes ("2" ++ t)))) ++
       (tickers.map (fun t => (2, strBytes (":" ++ t)))) ++
       (tickers.map (fun t => (2, strBytes ("J" ++ t))))) [] [] wireFields_nil
    simp only [List.append_nil] at h
    rw [show subscriptionInner tickers =
        (((tickers.map (fun t => (2, strBytes t))) ++
          (tickers.map (fun t => (2, strBytes ("2" ++ t)))) ++
          (tickers.map (fun t => (2, strBytes (":" ++ t)))) ++
          (tickers.map (fun t => (2, strBytes ("J" ++ t))))).map
            (fun p : Nat × List Nat => encode_field_bytes p.1 p.2)).flatten by
      simp [subscriptionInner, List.map_map, encode_field_string, Function.comp_def]]
    exact h
  · simp only [List.length_append, List.length_map]
    ring

/-- **C5** — Decoding the encoded subscription frame with the source's
inbound decoder recovers the top-level field map: fields 1, 2, 3 and 5 with
exactly the byte content that was encoded. -/
theorem C5_codec_round_trip (uid : Nat) (tickers : List String)
    (key bearer : String) :
    decode_orderbook_message (encode_websocket_request uid tickers key bearer) =
      some (.fields [(1, .bytes (strBytes (toString uid))),
                     (2, .bytes (subscriptionInner tickers)),
                     (3, .bytes (strBytes key)),
                     (5, .bytes (strBytes bearer))]) := by
  rw [decode_orderbook_message, encode_websocket_request]
  rw [show encode_field_string 1 (toString uid) ++
      ([(2 <<< 3) ||| 2] ++ encode_varint (subscriptionInner tickers).length ++
        subscriptionInner tickers) ++
      encode_field_string 3 key ++ encode_field_string 5 bearer =
      encode_field_bytes 1 (strBytes (toString uid)) ++
      (encode_field_bytes 2 (subscriptionInner tickers) ++
      (encode_field_bytes 3 (strBytes key) ++
      (encode_field_bytes 5 (strBytes bearer) ++ []))) by
    simp [encode_field_string, encode_field_bytes,
      encode_varint_small 18 (by norm_num)]]
  rw [decode_message_step 1 (by decide), decode_message_step 2 (by decide),
    decode_message_step 3 (by decide), decode_message_step 5 (by decide),
    decode_message_nil]
  rfl

/-! ### Market clock (`orderbook_daemon.py`, `_get_market_status`)

The WIB instant is given by its Python weekday (0 = Monday … 6 = Sunday)
and its second of day; Asia/Jakarta has a fixed +07:00 offset, so the local
calendar is a pure function of the instant. -/

/-- Seconds of day for an `'HH:MM'` literal. -/
def hm (h m : Nat) : Nat := h * 3600 + m * 60

/-- The dict returned by `_get_market_status`.  `next_open` is `(days ahead,
second of day)` relative to the current local date; `next_close` is a second
of the current day. -/
structure MarketStatus where
  is_open : Bool
  status : String
  reason : String
  session : Option Nat
  next_open : Option (Nat × Nat)
  next_close : Option Nat
  time_until_next : Int
deriving DecidableEq, Repr

/-- `_get_market_status` from `orderbook_daemon.py`: weekend first, then the
Mon–Thu / Fri session windows (5-minute cushions included), then session 1,
session 2, lunch break, pre-market, after hours. -/
def get_market_status (weekday : Nat) (now : Nat) : MarketStatus :=
  if 5 ≤ weekday then
    let days_until_monday := 7 - weekday
    { is_open := false, status := "closed", reason := "Weekend", session := none,
      next_open := some (days_until_monday, hm 8 55), next_close := none,
      time_until_next := (days_until_monday * 86400 + hm 8 55 : Int) - now }
  else
    let session1_open := hm 8 55
    let session1_close := if weekday < 4 then hm 12 5 else hm 11 35
    let session2_open := if weekday < 4 then hm 13 25 else hm 13 55
    let session2_close := hm 15 54
    if session1_open ≤ now ∧ now < session1_close then
      { is_open := true, status := "open", reason := "Session 1", session := some 1,
        next_open := none, next_close := some session1_close, time_until_next := 0 }
    else if session2_open ≤ now ∧ now < session2_close then
      { is_open := true, status := "open", reason := "Session 2", session := some 2,
        next_open := none, next_close := some session2_close, time_until_next := 0 }
    else if session1_close ≤ now ∧ now < session2_open then
      { is_open := false, status := "break", reason := "Lunch Break", session := none,
        next_open := some (0, session2_open), next_close := none,
        time_until_next := (session2_open : Int) - now }
    else if now < session1_open then
      { is_open := false, status := "closed", reason := "Pre-Market", session := none,
        next_open := some (0, session1_open), next_close := none,
        time_until_next := (session1_open : Int) - now }
    else
      let days_ahead := if weekday == 4 then 3 else 1
      { is_open := false, status := "closed", reason := "After Hours", session := none,
        next_open := some (days_ahead, hm 8 55), next_close := none,
        time_until_next := (days_ahead * 86400 + hm 8 55 : Int) - now }

/-! ### Token store (`auth.py`, `TokenManager`) -/

/-- In-memory state of `TokenManager`. -/
structure TokenState where
  token : Option String
  exp : Option Nat
  issued_at : Option String
  cookies : Option String
deriving DecidableEq, Repr

/-- The JSON document `_save_token` writes to `token.json`. -/
structure SavedToken where
  token : Option String
  exp : Option Nat
  cookies : Option String
  issued_at : Option String
deriving DecidableEq, Repr

/-- `_save_token` from `auth.py`. -/
def save_token (s : TokenState) : SavedToken :=
  { token := s.token, exp := s.exp, cookies := s.cookies, issued_at := s.issued_at }

/-- `mark_token_invalid` from `auth.py`: clears `token`, `exp` and
`issued_at`, then persists via `_save_token`.  Returns the new in-memory
state and the document written to disk. -/
def mark_token_invalid (s : TokenState) : TokenState × SavedToken :=
  let s' : TokenState :=
    { token := none, exp := none, issued_at := none, cookies := s.cookies }
  (s', save_token s')

/-! ### Job and task state machine (`jobs.py`) -/

inductive JobStatus
  | QUEUED | RUNNING | PAUSED | COMPLETED | FAILED
deriving DecidableEq, Repr

inductive TaskStatus
  | PENDING | RUNNING | COMPLETED | FAILED | SKIPPED
deriving DecidableEq, Repr

/-- `pause_job`: only a RUNNING job is paused. -/
def pause_job (s : JobStatus) : JobStatus :=
  if s = .RUNNING then .PAUSED else s

/-- `resume_job`: only a PAUSED job goes back to QUEUED. -/
def resume_job (s : JobStatus) : JobStatus :=
  if s = .PAUSED then .QUEUED else s

/-- `cancel_job`: sets FAILED for any existing job, with no status guard. -/
def cancel_job (_s : JobStatus) : JobStatus := .FAILED

/-- `_worker_loop` picks up only jobs whose status is QUEUED. -/
def worker_picks (s : JobStatus) : Bool := s == .QUEUED

/-! ### REST fetcher and pagination (`stockbit_client.py`) -/

/-- The fields of a running-trade record that the control flow reads:
`time` and the optional pagination cursor `trade_number`.  The remaining
wire fields are carried through to the CSV unchanged. -/
structure Trade where
  time : String
  trade_number : Option Nat
deriving DecidableEq, Repr

/-- A result dict of `_fetch_page` / `fetch_running_trade`; keys that a
given return site omits read as their Python falsy defaults. -/
structure FetchResult where
  success : Bool := false
  data : List Trade := []
  count : Nat := 0
  pages_fetched : Nat := 0
  requires_login : Bool := false
  captcha_required : Bool := false
  is_partial : Bool := false
  error : Option String := none
deriving DecidableEq, Repr

/-- `_fetch_page` classification of a single HTTP response (the token is
assumed present; the transport-level retry loop for 5xx/timeouts always ends
in one of these outcomes and is not modelled separately).  A 401 also marks
the token invalid via `mark_token_invalid`. -/
def fetch_page (status_code : Nat) (running_trade : List Trade) : FetchResult :=
  if status_code == 401 then
    { success := false, requires_login := true,
      error := some "Token expired or invalid. Please enter a new token." }
  else if status_code == 403 then
    { success := false, requires_login := true,
      error := some "Access forbidden. Token might need refresh." }
  else if 400 ≤ status_code ∧ status_code < 500 then
    { success := false, error := some "Client error" }
  else if 500 ≤ status_code then
    { success := false, error := some "Server error after retries" }
  else
    { success := true, data := running_trade, count := running_trade.length }

/-- The final `return` of `fetch_running_trade` (also reached by `break`). -/
def fetch_done (all_trades : List Trade) (page : Nat) : FetchResult :=
  { success := true, data := all_trades, count := all_trades.length,
    pages_fetched := page }

/-- The `while True` pagination loop of `fetch_running_trade`.  `responses`
lists the page results the server returns for the successive requests; the
n-th request receives the n-th entry (an exhausted list behaves like a
transport error on the next request). -/
def fetch_go (limit : Nat) : List FetchResult → List Trade → Nat → FetchResult
  | [], all_trades, page =>
    if all_trades ≠ [] then
      { success := true, data := all_trades, count := all_trades.length,
        pages_fetched := page - 1, is_partial := true }
    else
      { success := false, error := some "Request failed" }
  | r :: rest, all_trades, page =>
    if r.success = false then
      if all_trades ≠ [] then
        { success := true, data := all_trades, count := all_trades.length,
          pages_fetched := page - 1, is_partial := true }
      else r
    else if hpt : r.data = [] then
      fetch_done all_trades page
    else
      let page_trades := r.data
      let all' := all_trades ++ page_trades
      if page_trades.length < limit then fetch_done all' page
      else
        let last_trade := page_trades.getLast hpt
        if last_trade.time ≠ "" ∧ pyStrLe last_trade.time "09:00:00" = true then
          fetch_done all' page
        else if last_trade.trade_number.isSome then
          fetch_go limit rest all' (page + 1)
        else
          fetch_done all' page

/-- `fetch_running_trade` from `stockbit_client.py`: paginate from page 1
with no trades collected. -/
def fetch_running_trade (limit : Nat) (responses : List FetchResult) : FetchResult :=
  fetch_go limit responses [] 1

/-! ### CSV storage (`storage.py`) -/

/-- One line of a trade CSV file. -/
inductive CsvRow
  | header
  | record (t : Trade) (date : String)
deriving DecidableEq, Repr

structure SaveResult where
  success : Bool
  rows_written : Nat
  error : Option String
deriving DecidableEq, Repr

/-- `CSVStorage.save_trades` over the single target file (`none` = the file
does not exist).  With the default `CSV_APPEND_MODE = True`: mode `'a'` when
the file exists, `'w'` otherwise; the header is written exactly when the
file is new; every trade is written as one row.  An empty trade list
returns success before any file is opened. -/
def save_trades (date : String) (trades : List Trade) (file : Option (List CsvRow)) :
    SaveResult × Option (List CsvRow) :=
  if trades = [] then
    ({ success := true, rows_written := 0, error := none }, file)
  else
    let rows := trades.map (fun t => CsvRow.record t date)
    match file with
    | none =>
      ({ success := true, rows_written := trades.length, error := none },
        some (CsvRow.header :: rows))
    | some content =>
      ({ success := true, rows_written := trades.length, error := none },
        some (content ++ rows))

/-! ### Task execution (`jobs.py`, `_process_task`) -/

structure TaskRec where
  status : TaskStatus
  error : Option String
  records_fetched : Nat
  pages_fetched : Nat
  current_page : Nat
  attempts : Nat
deriving DecidableEq, Repr

structure TaskOutcome where
  job_status : JobStatus
  task : TaskRec
  file : Option (List CsvRow)
deriving DecidableEq, Repr

/-- `JobManager._process_task`: run the paginated fetch, save on success and
complete the task; on `requires_login` or `captcha_required` pause the job
and reset the task to PENDING; on any other error mark the task FAILED.
(The real-time progress-callback updates are overwritten by the terminal
updates and are not modelled.) -/
def process_task (job_status : JobStatus) (limit : Nat) (task : TaskRec)
    (date : String) (responses : List FetchResult)
    (file : Option (List CsvRow)) : TaskOutcome :=
  let task1 : TaskRec :=
    { task with status := .RUNNING, attempts := task.attempts + 1, current_page := 0 }
  let result := fetch_running_trade limit responses
  if result.success then
    let saved := save_trades date result.data file
    if saved.1.success then
      { job_status := job_status,
        task := { task1 with
                  status := .COMPLETED,
                  records_fetched := result.count,
                  pages_fetched := result.pages_fetched },
        file := saved.2 }
    else
      { job_status := job_status,
        task := { task1 with status := .FAILED, error := saved.1.error },
        file := saved.2 }
  else if result.requires_login then
    { job_status := .PAUSED,
      task := { task1 with
                status := .PENDING,
                error := some "Token expired - job paused",
                current_page := 0 },
      file := file }
  else if result.captcha_required then
    { job_status := .PAUSED,
      task := { task1 with
                status := .PENDING,
                error := some "Captcha required",
                current_page := 0 },
      file := file }
  else
    { job_status := job_status,
      task := { task1 with
                status := .FAILED,
                error := some (result.error.getD "Unknown error") },
      file := file }

/-! ### Daemon watchlist (`orderbook_daemon.py`) -/

/-- Python whitespace for `str.strip()`. -/
def pyIsSpace (c : Char) : Bool :=
  c = ' ' || c = '\t' || c = '\n' || c = '\x0d' || c = '\x0b' || c = '\x0c'

/-- Python `t.strip()`: drop leading and trailing whitespace. -/
def pyStrip (s : String) : String :=
  ⟨((s.data.dropWhile pyIsSpace).reverse.dropWhile pyIsSpace).reverse⟩

/-- Python `t.upper()` (tickers are ASCII). -/
def pyUpper (s : String) : String := ⟨s.data.map Char.toUpper⟩

/-- The normalization `[t.strip().upper() for t in tickers if t.strip()]`. -/
def normalize_tickers (l : List String) : List String :=
  (l.filter (fun t => pyStrip t != "")).map (fun t => pyUpper (pyStrip t))

/-- `set_tickers`: replace the watchlist with the normalized input. -/
def set_tickers (tickers : List String) : List String :=
  normalize_tickers tickers

/-- `add_tickers`: append each normalized ticker not already present. -/
def add_tickers (current : List String) (tickers : List String) : List String :=
  (normalize_tickers tickers).foldl
    (fun acc t => if t ∈ acc then acc else acc ++ [t]) current

/-- `remove_tickers`: `list.remove` each normalized ticker that is present
(removes the first occurrence). -/
def remove_tickers (current : List String) (tickers : List String) : List String :=
  (normalize_tickers tickers).foldl
    (fun acc t => if t ∈ acc then acc.erase t else acc) current

/-! ### Orderbook streamer lifecycle (`orderbook_streamer.py`,
`orderbook_daemon.py`) -/

/-- The keyword parameters `OrderbookStreamer.__init__` accepts
(`orderbook_streamer.py`): `token_manager` and `tickers` only. -/
def orderbook_streamer_init_params : List String :=
  ["token_manager", "tickers"]

/-- The keyword arguments `OrderbookDaemon._start_stream` passes to the
`OrderbookStreamer` constructor (`orderbook_daemon.py`), including
`max_retries=None` intended to mean infinite retries. -/
def daemon_start_stream_args : List String :=
  ["token_manager", "tickers", "max_retries"]

/-- The ways one streaming session can terminate abnormally. -/
inductive SessionEnd
  | connectError
  | handshakeError
  | authError
  | socketClosed (code : Nat)
  | receiveError
deriving DecidableEq, Repr

structure StreamerState where
  running : Bool
  connection_attempts : Nat
deriving DecidableEq, Repr

/-- `OrderbookStreamer.run`: set `running`, make a single `connect` attempt,
await the receive loop, and stop in the `finally` block.  Whether the
session ends with a connect/handshake/auth exception (caught by the
`except`) or the receive loop returns after a socket close or decode
cascade, control reaches `finally: await self.stop()` — there is no retry
loop around the attempt. -/
def streamer_run (s : StreamerState) (_outcome : SessionEnd) : StreamerState :=
  let s1 : StreamerState :=
    { running := true, connection_attempts := s.connection_attempts + 1 }
  { s1 with running := false }

/-! ### Helper lemmas for the fetch loop -/

theorem save_trades_success (date : String) (trades : List Trade)
    (file : Option (List CsvRow)) : (save_trades date trades file).1.success = true := by
  unfold save_trades
  by_cases h : trades = []
  · rw [if_pos h]
  · rw [if_neg h]
    cases file <;> rfl

theorem fetch_page_200 (p : List Trade) :
    fetch_page 200 p = { success := true, data := p, count := p.length } := by
  simp [fetch_page]

/-- A successful full page (no early-stop guard firing) advances pagination. -/
theorem fetch_go_full_page (limit : Nat) (p : List Trade) (hp : p ≠ [])
    (hlen : ¬ p.length < limit)
    (htime : ∀ t ∈ p, pyStrLe t.time "09:00:00" = false)
    (hnum : ∀ t ∈ p, t.trade_number.isSome = true)
    (rest : List FetchResult) (all : List Trade) (page : Nat) :
    fetch_go limit (fetch_page 200 p :: rest) all page =
      fetch_go limit rest (all ++ p) (page + 1) := by
  rw [fetch_page_200]
  simp only [fetch_go]
  rw [if_neg (by simp)]
  rw [dif_neg ?hpt]
  case hpt => simpa using hp
  rw [if_neg ?hl]
  case hl => simpa using hlen
  rw [if_neg ?hg]
  case hg =>
    rintro ⟨-, hle⟩
    have hle2 : pyStrLe (p.getLast hp).time "09:00:00" = true := hle
    rw [htime _ (List.getLast_mem hp)] at hle2
    cases hle2
  rw [if_pos ?hc]
  case hc => exact hnum _ (List.getLast_mem hp)

/-- A successful page with fewer than `limit` records ends the pagination. -/
theorem fetch_go_short_page (limit : Nat) (p : List Trade) (hp : p ≠ [])
    (hlen : p.length < limit)
    (rest : List FetchResult) (all : List Trade) (page : Nat) :
    fetch_go limit (fetch_page 200 p :: rest) all page = fetch_done (all ++ p) page := by
  rw [fetch_page_200]
  simp only [fetch_go]
  rw [if_neg (by simp)]
  rw [dif_neg ?hpt]
  case hpt => simpa using hp
  rw [if_pos ?hl]
  case hl => simpa using hlen

/-! ### Claim theorems for the crawl engine -/

/-- **C1 (counterexample)** — The claim predicts that a 401 on the second
page of a 125-record, limit-50 task leaves the job paused and the task
pending.  On the code, a 401 after a full first page is swallowed by
`fetch_running_trade` (partial success) and the task completes with the 50
records already collected while the job keeps running. -/
theorem C1_counterexample :
    (process_task JobStatus.RUNNING 50 ⟨TaskStatus.PENDING, none, 0, 0, 0, 0⟩
        "2025-01-02"
        [fetch_page 200 (List.replicate 50 ⟨"10:00:00", some 123⟩), fetch_page 401 []]
        none).job_status ≠ JobStatus.PAUSED ∧
    (process_task JobStatus.RUNNING 50 ⟨TaskStatus.PENDING, none, 0, 0, 0, 0⟩
        "2025-01-02"
        [fetch_page 200 (List.replicate 50 ⟨"10:00:00", some 123⟩), fetch_page 401 []]
        none).task.status = TaskStatus.COMPLETED ∧
    (process_task JobStatus.RUNNING 50 ⟨TaskStatus.PENDING, none, 0, 0, 0, 0⟩
        "2025-01-02"
        [fetch_page 200 (List.replicate 50 ⟨"10:00:00", some 123⟩), fetch_page 401 []]
        none).task.records_fetched = 50 := by
  refine ⟨by decide, by decide, by decide⟩

/-- **C1 (amended)** — A `requires_login` on the first page (before any
records were appended) pauses the job and resets the task to PENDING.  When
a full page was already fetched, a subsequent `requires_login` makes
`fetch_running_trade` return a partial success and the task completes with
the records collected so far; the job status is not changed. -/
theorem C1_requires_login_amended (job_status : JobStatus) (limit : Nat)
    (task : TaskRec) (date : String) (r : FetchResult) (rest : List FetchResult)
    (file : Option (List CsvRow))
    (hfail : r.success = false) (hlogin : r.requires_login = true) :
    ((process_task job_status limit task date (r :: rest) file).job_status
        = JobStatus.PAUSED ∧
     (process_task job_status limit task date (r :: rest) file).task.status
        = TaskStatus.PENDING ∧
     (process_task job_status limit task date (r :: rest) file).file = file) ∧
    (∀ (p : List Trade), p ≠ [] → p.length = limit →
      (∀ t ∈ p, pyStrLe t.time "09:00:00" = false) →
      (∀ t ∈ p, t.trade_number.isSome = true) →
      (process_task job_status limit task date (fetch_page 200 p :: r :: rest)
          file).job_status = job_status ∧
      (process_task job_status limit task date (fetch_page 200 p :: r :: rest)
          file).task.status = TaskStatus.COMPLETED ∧
      (process_task job_status limit task date (fetch_page 200 p :: r :: rest)
          file).task.records_fetched = limit ∧
      (process_task job_status limit task date (fetch_page 200 p :: r :: rest)
          file).task.pages_fetched = 1) := by
  constructor
  · have hres : fetch_running_trade limit (r :: rest) = r := by
      simp only [fetch_running_trade, fetch_go]
      rw [if_pos hfail]
      simp
    refine ⟨?_, ?_, ?_⟩ <;>
      simp only [process_task, hres, hfail, hlogin, Bool.false_eq_true, if_false, if_true]
  · intro p hne hlenp htime hnum
    have hres : fetch_running_trade limit (fetch_page 200 p :: r :: rest) =
        { success := true, data := p, count := p.length,
          pages_fetched := 1, is_partial := true } := by
      rw [fetch_running_trade,
        fetch_go_full_page limit p hne (by omega) htime hnum (r :: rest) [] 1,
        List.nil_append]
      simp only [fetch_go]
      rw [if_pos hfail, if_pos hne]
    refine ⟨?_, ?_, ?_, ?_⟩ <;>
      simp [process_task, hres, save_trades_success, hlenp]

/-- **C2 (counterexample)** — `cancel_job` contains no terminal-state guard:
cancelling a COMPLETED job rewrites its status to FAILED, so a terminal job
can transition again. -/
theorem C2_counterexample : cancel_job JobStatus.COMPLETED ≠ JobStatus.COMPLETED := by
  decide

/-- **C2 (amended)** — For a job in a terminal state (COMPLETED or FAILED),
`pause_job` and `resume_job` leave the status unchanged and the worker loop
never picks the job up; `cancel_job`, however, sets any job's status to
FAILED, so a completed job can still be flipped to failed (a failed job
stays failed). -/
theorem C2_terminal_amended (s : JobStatus)
    (h : s = JobStatus.COMPLETED ∨ s = JobStatus.FAILED) :
    pause_job s = s ∧ resume_job s = s ∧ worker_picks s = false ∧
    cancel_job s = JobStatus.FAILED := by
  rcases h with h | h <;> subst h <;> exact ⟨rfl, rfl, rfl, rfl⟩

theorem C2_terminal_amended_witness :
    (JobStatus.COMPLETED = JobStatus.COMPLETED ∨
      JobStatus.COMPLETED = JobStatus.FAILED) ∧
    (pause_job JobStatus.COMPLETED = JobStatus.COMPLETED ∧
     resume_job JobStatus.COMPLETED = JobStatus.COMPLETED ∧
     worker_picks JobStatus.COMPLETED = false ∧
     cancel_job JobStatus.COMPLETED = JobStatus.FAILED) :=
  ⟨Or.inl rfl, C2_terminal_amended JobStatus.COMPLETED (Or.inl rfl)⟩

/-- **C3** — The streamer makes exactly one connection attempt per `run` and
is stopped afterwards whatever the abnormal termination was: there is no
backoff-and-reconnect loop.  Moreover the daemon passes a `max_retries`
keyword that `OrderbookStreamer.__init__` does not accept, so the intended
"infinite retries" configuration raises a `TypeError` in Python. -/
theorem C3_no_retry_on_abnormal_termination (s : StreamerState) (outcome : SessionEnd) :
    streamer_run s outcome =
      { running := false, connection_attempts := s.connection_attempts + 1 } ∧
    "max_retries" ∈ daemon_start_stream_args ∧
    "max_retries" ∉ orderbook_streamer_init_params := by
  refine ⟨rfl, by decide, by decide⟩

/-- **C7** — With pages of 50, 50 and 25 records against limit 50, all times
after 09:00:00 and all records carrying a cursor, pagination stops at the
first short page: the fetch succeeds with 125 records over 3 pages and the
task completes with `recordsFetched = 125`, `pagesFetched = 3`. -/
theorem C7_three_page_pagination (p1 p2 p3 : List Trade)
    (h1 : p1.length = 50) (h2 : p2.length = 50) (h3 : p3.length = 25)
    (htime : ∀ t ∈ (p1 ++ p2) ++ p3, pyStrLe t.time "09:00:00" = false)
    (hnum : ∀ t ∈ (p1 ++ p2) ++ p3, t.trade_number.isSome = true)
    (job_status : JobStatus) (task : TaskRec) (date : String)
    (file : Option (List CsvRow)) :
    fetch_running_trade 50 [fetch_page 200 p1, fetch_page 200 p2, fetch_page 200 p3] =
      { success := true, data := (p1 ++ p2) ++ p3, count := 125, pages_fetched := 3 } ∧
    (process_task job_status 50 task date
        [fetch_page 200 p1, fetch_page 200 p2, fetch_page 200 p3] file).task.status
      = TaskStatus.COMPLETED ∧
    (process_task job_status 50 task date
        [fetch_page 200 p1, fetch_page 200 p2, fetch_page 200 p3] file).task.records_fetched
      = 125 ∧
    (process_task job_status 50 task date
        [fetch_page 200 p1, fetch_page 200 p2, fetch_page 200 p3] file).task.pages_fetched
      = 3 := by
  have hm1 : ∀ t ∈ p1, pyStrLe t.time "09:00:00" = false := by
    intro t ht; exact htime t (by simp [ht])
  have hm2 : ∀ t ∈ p2, pyStrLe t.time "09:00:00" = false := by
    intro t ht; exact htime t (by simp [ht])
  have hn1 : ∀ t ∈ p1, t.trade_number.isSome = true := by
    intro t ht; exact hnum t (by simp [ht])
  have hn2 : ∀ t ∈ p2, t.trade_number.isSome = true := by
    intro t ht; exact hnum t (by simp [ht])
  have hres : fetch_running_trade 50
      [fetch_page 200 p1, fetch_page 200 p2, fetch_page 200 p3] =
      { success := true, data := (p1 ++ p2) ++ p3, count := 125, pages_fetched := 3 } := by
    rw [fetch_running_trade,
      fetch_go_full_page 50 p1 (by intro h; rw [h] at h1; cases h1) (by omega) hm1 hn1,
      fetch_go_full_page 50 p2 (by intro h; rw [h] at h2; cases h2) (by omega) hm2 hn2,
      fetch_go_short_page 50 p3 (by intro h; rw [h] at h3; cases h3) (by omega)]
    simp only [fetch_done, List.nil_append]
    have : (((p1 ++ p2) ++ p3)).length = 125 := by
      simp [List.length_append, h1, h2, h3]
    rw [this]
  refine ⟨hres, ?_, ?_, ?_⟩ <;>
    simp [process_task, hres, save_trades_success]

theorem C7_three_page_pagination_witness :
    ((List.replicate 50 (Trade.mk "10:00:00" (some 7))).length = 50 ∧
     (List.replicate 50 (Trade.mk "11:00:00" (some 6))).length = 50 ∧
     (List.replicate 25 (Trade.mk "13:30:00" (some 5))).length = 25) ∧
    fetch_running_trade 50
        [fetch_page 200 (List.replicate 50 (Trade.mk "10:00:00" (some 7))),
         fetch_page 200 (List.replicate 50 (Trade.mk "11:00:00" (some 6))),
         fetch_page 200 (List.replicate 25 (Trade.mk "13:30:00" (some 5)))] =
      { success := true,
        data := (List.replicate 50 (Trade.mk "10:00:00" (some 7)) ++
                 List.replicate 50 (Trade.mk "11:00:00" (some 6))) ++
                List.replicate 25 (Trade.mk "13:30:00" (some 5)),
        count := 125, pages_fetched := 3 } ∧
    (process_task JobStatus.RUNNING 50 ⟨TaskStatus.PENDING, none, 0, 0, 0, 0⟩
        "2025-01-02"
        [fetch_page 200 (List.replicate 50 (Trade.mk "10:00:00" (some 7))),
         fetch_page 200 (List.replicate 50 (Trade.mk "11:00:00" (some 6))),
         fetch_page 200 (List.replicate 25 (Trade.mk "13:30:00" (some 5)))]
        none).task.records_fetched = 125 := by
  have htime : ∀ t ∈ (List.replicate 50 (Trade.mk "10:00:00" (some 7)) ++
      List.replicate 50 (Trade.mk "11:00:00" (some 6))) ++
      List.replicate 25 (Trade.mk "13:30:00" (some 5)),
      pyStrLe t.time "09:00:00" = false := by
    intro t ht
    simp only [List.mem_append, List.mem_replicate] at ht
    rcases ht with (⟨-, rfl⟩ | ⟨-, rfl⟩) | ⟨-, rfl⟩ <;> decide
  have hnum : ∀ t ∈ (List.replicate 50 (Trade.mk "10:00:00" (some 7)) ++
      List.replicate 50 (Trade.mk "11:00:00" (some 6))) ++
      List.replicate 25 (Trade.mk "13:30:00" (some 5)),
      t.trade_number.isSome = true := by
    intro t ht
    simp only [List.mem_append, List.mem_replicate] at ht
    rcases ht with (⟨-, rfl⟩ | ⟨-, rfl⟩) | ⟨-, rfl⟩ <;> rfl
  refine ⟨⟨by simp, by simp, by simp⟩, ?_, ?_⟩
  · exact (C7_three_page_pagination _ _ _ (by simp) (by simp) (by simp)
      htime hnum JobStatus.RUNNING ⟨TaskStatus.PENDING, none, 0, 0, 0, 0⟩
      "2025-01-02" none).1
  · exact (C7_three_page_pagination _ _ _ (by simp) (by simp) (by simp)
      htime hnum JobStatus.RUNNING ⟨TaskStatus.PENDING, none, 0, 0, 0, 0⟩
      "2025-01-02" none).2.2.1

/-- **C10** — `save_trades` with an empty trade list returns success with
`rows_written = 0` and leaves the file system untouched; consequently a task
whose first page is empty (a non-trading day) completes with zero records on
one page and produces no CSV file. -/
theorem C10_empty_save_writes_nothing (date : String) (file : Option (List CsvRow))
    (job_status : JobStatus) (limit : Nat) (task : TaskRec)
    (rest : List FetchResult) :
    save_trades date [] file = ({ success := true, rows_written := 0, error := none }, file) ∧
    (process_task job_status limit task date (fetch_page 200 [] :: rest) none).file = none ∧
    (process_task job_status limit task date (fetch_page 200 [] :: rest) none).task.status
      = TaskStatus.COMPLETED ∧
    (process_task job_status limit task date (fetch_page 200 [] :: rest) none).task.records_fetched
      = 0 ∧
    (process_task job_status limit task date (fetch_page 200 [] :: rest) none).task.pages_fetched
      = 1 := by
  have hres : fetch_running_trade limit (fetch_page 200 [] :: rest) = fetch_done [] 1 := by
    rw [fetch_running_trade, fetch_page_200]
    simp only [fetch_go]
    rw [if_neg (by simp), dif_pos trivial]
  refine ⟨by simp [save_trades], ?_, ?_, ?_, ?_⟩ <;>
    simp [process_task, hres, fetch_done, save_trades]

/-! ### Claim theorems for token store, market clock, watchlist, streamer -/

/-- **C8 (counterexample)** — `mark_token_invalid` does not null the
cookies: starting from a fully populated token record, the cookies survive
both in memory and in the persisted document. -/
theorem C8_counterexample :
    (mark_token_invalid
        { token := some "tok",
          exp := some 1700000000,
          issued_at := some "2025-01-01T00:00:00",
          cookies := some "sid=abc" }).1.cookies ≠ none := by
  decide

/-- **C8 (amended)** — `mark_token_invalid` nulls the bearer token, expiry
and issue time and persists exactly that state; the cookies field is kept
unchanged in memory and on disk. -/
theorem C8_mark_invalid_amended (s : TokenState) :
    mark_token_invalid s =
      ({ token := none, exp := none, issued_at := none, cookies := s.cookies },
       { token := none, exp := none, cookies := s.cookies, issued_at := none }) := rfl

/-- **C6** — On a weekend instant (Python weekday 5 or 6) the clock reports
`closed` for reason Weekend with the next transition on the following Monday
(the day `7 - weekday` days ahead, which is a Monday) at 08:55; on a Friday
instant at or after the 15:54 session-2 close it reports the next open three
days ahead — the following Monday — at 08:55. -/
theorem C6_weekend_and_friday_close (weekday now : Nat)
    (hwd : weekday < 7) (hnow : now < 86400) :
    (5 ≤ weekday →
      (get_market_status weekday now).is_open = false ∧
      (get_market_status weekday now).status = "closed" ∧
      (get_market_status weekday now).reason = "Weekend" ∧
      (get_market_status weekday now).next_open = some (7 - weekday, hm 8 55) ∧
      (weekday + (7 - weekday)) % 7 = 0 ∧ 0 < 7 - weekday) ∧
    (weekday = 4 → hm 15 54 ≤ now →
      (get_market_status weekday now).is_open = false ∧
      (get_market_status weekday now).status = "closed" ∧
      (get_market_status weekday now).reason = "After Hours" ∧
      (get_market_status weekday now).next_open = some (3, hm 8 55) ∧
      (weekday + 3) % 7 = 0) := by
  constructor
  · intro h5
    rw [get_market_status, if_pos h5]
    exact ⟨rfl, rfl, rfl, rfl, by omega, by omega⟩
  · intro h4 hafter
    subst h4
    have hval : hm 15 54 = 57240 := by norm_num [hm]
    rw [hval] at hafter
    rw [get_market_status, if_neg (by omega)]
    rw [if_neg ?s1, if_neg ?s2, if_neg ?br, if_neg ?pre]
    case s1 => simp only [hm]; norm_num; omega
    case s2 => simp only [hm]; norm_num; omega
    case br => simp only [hm]; norm_num; omega
    case pre => simp only [hm]; norm_num; omega
    exact ⟨rfl, rfl, rfl, rfl, by omega⟩

theorem C6_weekend_and_friday_close_witness :
    ((5 : Nat) < 7 ∧ (40000 : Nat) < 86400 ∧ (4 : Nat) < 7 ∧ (60000 : Nat) < 86400) ∧
    (get_market_status 5 40000).reason = "Weekend" ∧
    (get_market_status 5 40000).next_open = some (2, hm 8 55) ∧
    (get_market_status 4 60000).reason = "After Hours" ∧
    (get_market_status 4 60000).next_open = some (3, hm 8 55) := by
  refine ⟨⟨by norm_num, by norm_num, by norm_num, by norm_num⟩, ?_, ?_, ?_, ?_⟩
  · exact ((C6_weekend_and_friday_close 5 40000 (by norm_num) (by norm_num)).1
      (by norm_num)).2.2.1
  · exact ((C6_weekend_and_friday_close 5 40000 (by norm_num) (by norm_num)).1
      (by norm_num)).2.2.2.1
  · exact ((C6_weekend_and_friday_close 4 60000 (by norm_num) (by norm_num)).2
      rfl (by norm_num [hm])).2.2.1
  · exact ((C6_weekend_and_friday_close 4 60000 (by norm_num) (by norm_num)).2
      rfl (by norm_num [hm])).2.2.2.1

/-! ### Watchlist claims -/

theorem add_fold_nodup : ∀ (l : List String) (cur : List String), cur.Nodup →
    (l.foldl (fun acc t => if t ∈ acc then acc else acc ++ [t]) cur).Nodup := by
  intro l
  induction l with
  | nil => intro cur h; exact h
  | cons t ts ih =>
    intro cur h
    simp only [List.foldl_cons]
    by_cases ht : t ∈ cur
    · rw [if_pos ht]; exact ih cur h
    · rw [if_neg ht]
      apply ih
      rw [List.nodup_append]
      refine ⟨h, List.nodup_singleton t, ?_⟩
      intro a ha hat
      rw [List.mem_singleton] at hat
      subst hat
      exact ht ha

theorem add_fold_extends : ∀ (l cur : List String), ∃ ext,
    l.foldl (fun acc t => if t ∈ acc then acc else acc ++ [t]) cur = cur ++ ext := by
  intro l
  induction l with
  | nil => intro cur; exact ⟨[], by simp⟩
  | cons t ts ih =>
    intro cur
    simp only [List.foldl_cons]
    by_cases ht : t ∈ cur
    · rw [if_pos ht]; exact ih cur
    · rw [if_neg ht]
      obtain ⟨ext, hext⟩ := ih (cur ++ [t])
      exact ⟨[t] ++ ext, by simp [hext]⟩

theorem remove_fold_nodup : ∀ (l : List String) (cur : List String), cur.Nodup →
    (l.foldl (fun acc t => if t ∈ acc then acc.erase t else acc) cur).Nodup := by
  intro l
  induction l with
  | nil => intro cur h; exact h
  | cons t ts ih =>
    intro cur h
    simp only [List.foldl_cons]
    by_cases ht : t ∈ cur
    · rw [if_pos ht]; exact ih _ (h.erase t)
    · rw [if_neg ht]; exact ih cur h

/-- **C9 (counterexample)** — `set_tickers` does not deduplicate: a repeated
symbol in the input stays repeated in the watchlist. -/
theorem C9_counterexample : ¬ (set_tickers ["BBCA", "BBCA"]).Nodup := by
  decide

theorem remove_fold_sublist : ∀ (l : List String) (cur : List String),
    (l.foldl (fun acc t => if t ∈ acc then acc.erase t else acc) cur).Sublist cur := by
  intro l
  induction l with
  | nil => intro cur; exact List.Sublist.refl cur
  | cons t ts ih =>
    intro cur
    simp only [List.foldl_cons]
    by_cases ht : t ∈ cur
    · rw [if_pos ht]
      exact (ih (cur.erase t)).trans (List.erase_sublist t cur)
    · rw [if_neg ht]; exact ih cur

/-- **C9 (amended)** — Starting from a duplicate-free watchlist,
`add_tickers` keeps it duplicate-free and only appends (insertion order of
the existing entries is preserved), and `remove_tickers` keeps it
duplicate-free with its result a subsequence of the previous watchlist (the
surviving entries keep their relative order); `set_tickers`, however,
installs the normalized input verbatim, so a repeated input symbol produces
a repeated watchlist entry. -/
theorem C9_watchlist_amended (cur new : List String) (h : cur.Nodup) :
    (add_tickers cur new).Nodup ∧
    (∃ ext, add_tickers cur new = cur ++ ext) ∧
    (remove_tickers cur new).Nodup ∧
    (remove_tickers cur new).Sublist cur ∧
    set_tickers ["BBCA", "BBCA"] = ["BBCA", "BBCA"] := by
  refine ⟨add_fold_nodup _ cur h, add_fold_extends _ cur, remove_fold_nodup _ cur h,
    remove_fold_sublist _ cur, ?_⟩
  decide

theorem C9_watchlist_amended_witness :
    (["BBCA", "TLKM"] : List String).Nodup ∧
    ((add_tickers ["BBCA", "TLKM"] ["GOTO"]).Nodup ∧
     (∃ ext, add_tickers ["BBCA", "TLKM"] ["GOTO"] = ["BBCA", "TLKM"] ++ ext) ∧
     (remove_tickers ["BBCA", "TLKM"] ["GOTO"]).Nodup ∧
     (remove_tickers ["BBCA", "TLKM"] ["GOTO"]).Sublist ["BBCA", "TLKM"] ∧
     set_tickers ["BBCA", "BBCA"] = ["BBCA", "BBCA"]) :=
  ⟨by decide, C9_watchlist_amended ["BBCA", "TLKM"] ["GOTO"] (by decide)⟩

theorem C1_requires_login_amended_witness :
    ((fetch_page 401 []).success = false ∧ (fetch_page 401 []).requires_login = true) ∧
    ((process_task JobStatus.RUNNING 50 ⟨TaskStatus.PENDING, none, 0, 0, 0, 0⟩
        "2025-01-02" [fetch_page 401 []] none).job_status = JobStatus.PAUSED ∧
     (process_task JobStatus.RUNNING 50 ⟨TaskStatus.PENDING, none, 0, 0, 0, 0⟩
        "2025-01-02" [fetch_page 401 []] none).task.status = TaskStatus.PENDING) := by
  refine ⟨⟨by decide, by decide⟩, ?_⟩
  have h := (C1_requires_login_amended JobStatus.RUNNING 50
    ⟨TaskStatus.PENDING, none, 0, 0, 0, 0⟩ "2025-01-02" (fetch_page 401 []) [] none
    (by decide) (by decide)).1
  exact ⟨h.1, h.2.1⟩

theorem C4_subscription_frame_structure_witness :
    (["BBCA", "TLKM"] : List String) ≠ [] ∧
    wireFields (encode_websocket_request 123 ["BBCA", "TLKM"] "KEY" "BEARER") =
      some [(1, strBytes (toString 123)),
            (2, subscriptionInner ["BBCA", "TLKM"]),
            (3, strBytes "KEY"),
            (5, strBytes "BEARER")] ∧
    wireFields (subscriptionInner ["BBCA", "TLKM"]) =
      some ((["BBCA", "TLKM"].map (fun t => (2, strBytes t))) ++
            (["BBCA", "TLKM"].map (fun t => (2, strBytes ("2" ++ t)))) ++
            (["BBCA", "TLKM"].map (fun t => (2, strBytes (":" ++ t)))) ++
            (["BBCA", "TLKM"].map (fun t => (2, strBytes ("J" ++ t))))) := by
  have h := C4_subscription_frame_structure 123 ["BBCA", "TLKM"] "KEY" "BEARER"
    (by simp)
  exact ⟨by simp, h.1, h.2.1⟩

end StockbitCrawler
